import Mathlib

/-!
Verification development for the kliff repository
(src/openkim_fit/ann.py and src/kliff/models/neural_network.py).

Machine floats are embedded as exact rationals (ℚ).  A fingerprint row (one
atom) is a `List ℚ` of descriptor-channel values; a fingerprint matrix `zeta`
(one configuration) is a `List (List ℚ)` of rows; a dataset is a `List` of such
matrices.  The descriptor itself is an external collaborator (spec section 4.1):
a dataset is given directly by the `zeta` matrices it produces, in order.
-/

namespace Spec2Proof

/-! ### Embedding of the statistics code in `src/openkim_fit/ann.py` -/

/-- One iteration of the row loop in `welford_mean_and_std` (ann.py lines
333-338), vectorized over channels exactly as the numpy code is:
`n += 1; delta = row - mean; mean += delta/n; delta2 = row - mean;
M2 += delta*delta2`. -/
def welfordStep (st : ℕ × List ℚ × List ℚ) (row : List ℚ) : ℕ × List ℚ × List ℚ :=
  let n := st.1 + 1
  let delta := List.zipWith (fun x m => x - m) row st.2.1
  let mean := List.zipWith (fun m d => m + d / (n : ℚ)) st.2.1 delta
  let delta2 := List.zipWith (fun x m => x - m) row mean
  let M2 := List.zipWith (fun m2 dd => m2 + dd) st.2.2
    (List.zipWith (fun a b => a * b) delta delta2)
  (n, mean, M2)

/-- The starting state of `welford_mean_and_std` (ann.py 328-330):
`n = 0; mean = np.zeros(size); M2 = np.zeros(size)`. -/
def welfordInit (size : ℕ) : ℕ × List ℚ × List ℚ :=
  (0, List.replicate size 0, List.replicate size 0)

/-- The double loop of `welford_mean_and_std` (ann.py 331-338): over
configurations, and over the rows of each fingerprint matrix. -/
def welfordState (size : ℕ) (configs : List (List (List ℚ))) : ℕ × List ℚ × List ℚ :=
  configs.foldl (fun st zeta => zeta.foldl welfordStep st) (welfordInit size)

/-- The mean returned by `welford_mean_and_std`. -/
def welfordMean (size : ℕ) (configs : List (List (List ℚ))) : List ℚ :=
  (welfordState size configs).2.1

/-- Square of the standard deviation returned by `welford_mean_and_std`:
the code computes `std = np.sqrt(M2/(n-1))` (ann.py 342); the square root does
not exist inside ℚ, so the embedding carries the radicand `M2/(n-1)`, which
determines `std` uniquely (square root is injective on nonnegative reals). -/
def welfordStdSq (size : ℕ) (configs : List (List (List ℚ))) : List ℚ :=
  let st := welfordState size configs
  st.2.2.map (fun m2 => m2 / ((st.1 : ℚ) - 1))

/-- Per-channel sums of a stack of rows (the `axis=0` reduction used by
`np.mean` and `np.std`). -/
def colSums (size : ℕ) (rows : List (List ℚ)) : List ℚ :=
  rows.foldl (fun acc row => List.zipWith (fun a b => a + b) acc row)
    (List.replicate size 0)

/-- `np.mean(stacked, axis=0)` in `numpy_mean_and_std` (ann.py 356):
per-channel sum divided by the number of rows. -/
def numpyMean (size : ℕ) (rows : List (List ℚ)) : List ℚ :=
  (colSums size rows).map (fun s => s / (rows.length : ℚ))

/-- Square of `np.std(stacked, axis=0)` in `numpy_mean_and_std` (ann.py 357):
numpy uses the population convention, `mean((x - mean)^2)` with denominator
`n` (`ddof = 0`).  As for `welfordStdSq` the embedding carries the square. -/
def numpyStdSq (size : ℕ) (rows : List (List ℚ)) : List ℚ :=
  let m := numpyMean size rows
  (colSums size (rows.map (fun row => List.zipWith (fun x mu => (x - mu) ^ 2) row m))).map
    (fun s => s / (rows.length : ℚ))

/-- The per-row update rule exactly as the spec states it for a single channel
(spec section 4.2): `n += 1; delta = x - mean; mean += delta/n;
delta2 = x - mean; M2 += delta*delta2`. -/
def specUpdate (st : ℕ × ℚ × ℚ) (x : ℚ) : ℕ × ℚ × ℚ :=
  (st.1 + 1,
   st.2.1 + (x - st.2.1) / ((st.1 + 1 : ℕ) : ℚ),
   st.2.2 + (x - st.2.1) * (x - (st.2.1 + (x - st.2.1) / ((st.1 + 1 : ℕ) : ℚ))))

/-- Sum of squares of a list of rationals. -/
def sqSum (xs : List ℚ) : ℚ := (xs.map (fun x => x ^ 2)).sum

/-! ### Scalar Welford correctness -/

theorem specUpdate_fold (xs : List ℚ) :
    List.foldl specUpdate (0, 0, 0) xs =
      (xs.length, xs.sum / (xs.length : ℚ), sqSum xs - xs.sum ^ 2 / (xs.length : ℚ)) := by
  induction xs using List.reverseRecOn with
  | nil => simp [sqSum]
  | append_singleton xs x ih =>
    rw [List.foldl_append, ih]
    simp only [List.foldl_cons, List.foldl_nil, specUpdate, sqSum, List.length_append,
      List.sum_append, List.map_append, List.length_singleton, List.sum_singleton,
      List.map_singleton, Prod.mk.injEq]
    rcases Nat.eq_zero_or_pos xs.length with h0 | hpos
    · have hx : xs = [] := List.length_eq_zero.mp h0
      subst hx
      norm_num
    · have hn : ((xs.length : ℚ)) ≠ 0 := by positivity
      have hn1 : ((xs.length : ℚ)) + 1 ≠ 0 := by positivity
      refine ⟨trivial, ?_, ?_⟩
      · push_cast
        field_simp
        ring
      · push_cast
        field_simp
        ring

/-- Sum of squared deviations from an arbitrary point, expanded. -/
theorem sq_dev_sum (xs : List ℚ) (mu : ℚ) :
    (xs.map (fun x => (x - mu) ^ 2)).sum =
      sqSum xs - 2 * mu * xs.sum + (xs.length : ℚ) * mu ^ 2 := by
  induction xs with
  | nil => simp [sqSum]
  | cons a l ih =>
    simp only [List.map_cons, List.sum_cons, ih, sqSum, List.length_cons]
    push_cast
    ring

/-! ### Componentwise lemmas: the vectorized folds project to scalar folds -/

theorem getD_zipWith (f : ℚ → ℚ → ℚ) (as bs : List ℚ) (c : ℕ)
    (ha : c < as.length) (hb : c < bs.length) :
    (List.zipWith f as bs).getD c 0 = f (as.getD c 0) (bs.getD c 0) := by
  have hz : c < (List.zipWith f as bs).length := by
    rw [List.length_zipWith]
    exact lt_min ha hb
  rw [List.getD_eq_getElem _ _ hz, List.getD_eq_getElem _ _ ha,
    List.getD_eq_getElem _ _ hb, List.getElem_zipWith]

theorem getD_map (f : ℚ → ℚ) (l : List ℚ) (c : ℕ) (hc : c < l.length) :
    (l.map f).getD c 0 = f (l.getD c 0) := by
  have hm : c < (l.map f).length := by simpa using hc
  rw [List.getD_eq_getElem _ _ hm, List.getD_eq_getElem _ _ hc, List.getElem_map]

theorem welfordStep_n (st : ℕ × List ℚ × List ℚ) (row : List ℚ) :
    (welfordStep st row).1 = st.1 + 1 := rfl

theorem welfordStep_mean_len (size : ℕ) (st : ℕ × List ℚ × List ℚ) (row : List ℚ)
    (h1 : st.2.1.length = size) (h3 : row.length = size) :
    (welfordStep st row).2.1.length = size := by
  simp [welfordStep, List.length_zipWith, h1, h3]

theorem welfordStep_M2_len (size : ℕ) (st : ℕ × List ℚ × List ℚ) (row : List ℚ)
    (h1 : st.2.1.length = size) (h2 : st.2.2.length = size) (h3 : row.length = size) :
    (welfordStep st row).2.2.length = size := by
  simp [welfordStep, List.length_zipWith, h1, h2, h3]

theorem welfordStep_getD (size : ℕ) (st : ℕ × List ℚ × List ℚ) (row : List ℚ) (c : ℕ)
    (hc : c < size) (h1 : st.2.1.length = size) (h2 : st.2.2.length = size)
    (h3 : row.length = size) :
    ((welfordStep st row).1,
     (welfordStep st row).2.1.getD c 0,
     (welfordStep st row).2.2.getD c 0)
      = specUpdate (st.1, st.2.1.getD c 0, st.2.2.getD c 0) (row.getD c 0) := by
  have hdel : (List.zipWith (fun x m => x - m) row st.2.1).length = size := by
    rw [List.length_zipWith, h1, h3, min_self]
  have hmean : (welfordStep st row).2.1.length = size := welfordStep_mean_len size st row h1 h3
  have hdel2 : (List.zipWith (fun x m => x - m) row (welfordStep st row).2.1).length = size := by
    rw [List.length_zipWith, h3, hmean, min_self]
  simp only [welfordStep, specUpdate, Prod.mk.injEq] at hmean hdel2 ⊢
  refine ⟨trivial, ?_, ?_⟩
  · rw [getD_zipWith _ _ _ _ (by omega) (by omega),
      getD_zipWith _ _ _ _ (by omega) (by omega)]
  · rw [getD_zipWith _ _ _ _ (by omega) (by rw [List.length_zipWith]; omega),
      getD_zipWith _ _ _ _ (by omega) (by omega),
      getD_zipWith _ _ _ _ (by omega) (by omega),
      getD_zipWith _ _ _ _ (by omega) (by omega),
      getD_zipWith _ _ _ _ (by omega) (by omega),
      getD_zipWith _ _ _ _ (by omega) (by omega)]

theorem welfordFold_n (rows : List (List ℚ)) :
    ∀ st : ℕ × List ℚ × List ℚ, (rows.foldl welfordStep st).1 = st.1 + rows.length := by
  induction rows with
  | nil => intro st; simp
  | cons row rows ih =>
    intro st
    simp only [List.foldl_cons, List.length_cons, ih (welfordStep st row), welfordStep_n]
    omega

theorem welfordFold_mean_len (size : ℕ) (rows : List (List ℚ)) :
    ∀ st : ℕ × List ℚ × List ℚ, (∀ r ∈ rows, r.length = size) →
      st.2.1.length = size → st.2.2.length = size →
      (rows.foldl welfordStep st).2.1.length = size ∧
        (rows.foldl welfordStep st).2.2.length = size := by
  induction rows with
  | nil => intro st _ h1 h2; exact ⟨h1, h2⟩
  | cons row rows ih =>
    intro st hr h1 h2
    have h3 : row.length = size := hr row (List.mem_cons_self row rows)
    exact ih (welfordStep st row)
      (fun r h => hr r (List.mem_cons_of_mem _ h))
      (welfordStep_mean_len size st row h1 h3)
      (welfordStep_M2_len size st row h1 h2 h3)

theorem welfordFold_getD (size c : ℕ) (hc : c < size) (rows : List (List ℚ)) :
    ∀ st : ℕ × List ℚ × List ℚ, (∀ r ∈ rows, r.length = size) →
      st.2.1.length = size → st.2.2.length = size →
      ((rows.foldl welfordStep st).1,
       (rows.foldl welfordStep st).2.1.getD c 0,
       (rows.foldl welfordStep st).2.2.getD c 0)
        = List.foldl specUpdate (st.1, st.2.1.getD c 0, st.2.2.getD c 0)
            (rows.map (fun r => r.getD c 0)) := by
  induction rows with
  | nil => intro st _ _ _; rfl
  | cons row rows ih =>
    intro st hr h1 h2
    have h3 : row.length = size := hr row (List.mem_cons_self row rows)
    simp only [List.foldl_cons, List.map_cons]
    rw [← welfordStep_getD size st row c hc h1 h2 h3]
    exact ih (welfordStep st row)
      (fun r h => hr r (List.mem_cons_of_mem _ h))
      (welfordStep_mean_len size st row h1 h3)
      (welfordStep_M2_len size st row h1 h2 h3)

theorem colSumsFold_len (size : ℕ) (rows : List (List ℚ)) :
    ∀ acc : List ℚ, (∀ r ∈ rows, r.length = size) → acc.length = size →
      (rows.foldl (fun a r => List.zipWith (fun x y => x + y) a r) acc).length = size := by
  induction rows with
  | nil => intro acc _ h; exact h
  | cons row rows ih =>
    intro acc hr h
    have h3 : row.length = size := hr row (List.mem_cons_self row rows)
    refine ih _ (fun r hm => hr r (List.mem_cons_of_mem _ hm)) ?_
    rw [List.length_zipWith, h, h3, min_self]

theorem colSumsFold_getD (size c : ℕ) (hc : c < size) (rows : List (List ℚ)) :
    ∀ acc : List ℚ, (∀ r ∈ rows, r.length = size) → acc.length = size →
      (rows.foldl (fun a r => List.zipWith (fun x y => x + y) a r) acc).getD c 0
        = acc.getD c 0 + (rows.map (fun r => r.getD c 0)).sum := by
  induction rows with
  | nil => intro acc _ _; simp
  | cons row rows ih =>
    intro acc hr h
    have h3 : row.length = size := hr row (List.mem_cons_self row rows)
    have hz : (List.zipWith (fun x y => x + y) acc row).length = size := by
      rw [List.length_zipWith, h, h3, min_self]
    simp only [List.foldl_cons, List.map_cons, List.sum_cons]
    rw [ih _ (fun r hm => hr r (List.mem_cons_of_mem _ hm)) hz,
      getD_zipWith _ _ _ _ (by omega) (by omega)]
    ring

theorem colSums_len (size : ℕ) (rows : List (List ℚ))
    (hr : ∀ r ∈ rows, r.length = size) : (colSums size rows).length = size :=
  colSumsFold_len size rows _ hr (List.length_replicate size 0)

theorem colSums_getD (size c : ℕ) (hc : c < size) (rows : List (List ℚ))
    (hr : ∀ r ∈ rows, r.length = size) :
    (colSums size rows).getD c 0 = (rows.map (fun r => r.getD c 0)).sum := by
  unfold colSums
  rw [colSumsFold_getD size c hc rows _ hr (List.length_replicate size 0),
    List.getD_eq_getElem _ _ (by simpa using hc), List.getElem_replicate]
  ring

theorem welfordState_flatten (size : ℕ) (configs : List (List (List ℚ))) :
    welfordState size configs = configs.flatten.foldl welfordStep (welfordInit size) := by
  unfold welfordState
  rw [List.foldl_flatten]

/-- Channel `c` of the final Welford state: the running count is the total row
count, the running mean is the channel average, and `M2` is the channel sum of
squares minus the squared-sum correction. -/
theorem welfordState_channel (size c : ℕ) (hc : c < size) (configs : List (List (List ℚ)))
    (hrows : ∀ r ∈ configs.flatten, r.length = size) :
    ((welfordState size configs).1,
     (welfordState size configs).2.1.getD c 0,
     (welfordState size configs).2.2.getD c 0)
      = (configs.flatten.length,
         (configs.flatten.map (fun r => r.getD c 0)).sum / (configs.flatten.length : ℚ),
         sqSum (configs.flatten.map (fun r => r.getD c 0))
           - (configs.flatten.map (fun r => r.getD c 0)).sum ^ 2
               / (configs.flatten.length : ℚ)) := by
  rw [welfordState_flatten]
  have h0 : (welfordInit size).2.1.length = size := List.length_replicate _ _
  have h02 : (welfordInit size).2.2.length = size := List.length_replicate _ _
  rw [welfordFold_getD size c hc configs.flatten (welfordInit size) hrows h0 h02]
  have hi1 : (welfordInit size).2.1.getD c 0 = 0 := by
    unfold welfordInit
    rw [List.getD_eq_getElem _ _ (by simpa using hc), List.getElem_replicate]
  have hi2 : (welfordInit size).2.2.getD c 0 = 0 := by
    unfold welfordInit
    rw [List.getD_eq_getElem _ _ (by simpa using hc), List.getElem_replicate]
  rw [hi1, hi2]
  have hi0 : (welfordInit size).1 = 0 := rfl
  rw [hi0, specUpdate_fold, List.length_map]

theorem welfordMean_len (size : ℕ) (configs : List (List (List ℚ)))
    (hrows : ∀ r ∈ configs.flatten, r.length = size) :
    (welfordMean size configs).length = size := by
  unfold welfordMean
  rw [welfordState_flatten]
  exact (welfordFold_mean_len size configs.flatten (welfordInit size) hrows
    (List.length_replicate _ _) (List.length_replicate _ _)).1

theorem welfordM2_len (size : ℕ) (configs : List (List (List ℚ)))
    (hrows : ∀ r ∈ configs.flatten, r.length = size) :
    (welfordState size configs).2.2.length = size := by
  rw [welfordState_flatten]
  exact (welfordFold_mean_len size configs.flatten (welfordInit size) hrows
    (List.length_replicate _ _) (List.length_replicate _ _)).2

theorem numpyMean_len (size : ℕ) (rows : List (List ℚ))
    (hr : ∀ r ∈ rows, r.length = size) : (numpyMean size rows).length = size := by
  simp [numpyMean, colSums_len size rows hr]

theorem numpyMean_getD (size c : ℕ) (hc : c < size) (rows : List (List ℚ))
    (hr : ∀ r ∈ rows, r.length = size) :
    (numpyMean size rows).getD c 0
      = (rows.map (fun r => r.getD c 0)).sum / (rows.length : ℚ) := by
  unfold numpyMean
  rw [getD_map _ _ _ (by rw [colSums_len size rows hr]; exact hc),
    colSums_getD size c hc rows hr]

theorem numpyStdSq_getD (size c : ℕ) (hc : c < size) (rows : List (List ℚ))
    (hr : ∀ r ∈ rows, r.length = size) :
    (numpyStdSq size rows).getD c 0
      = (rows.map (fun r => (r.getD c 0 - (numpyMean size rows).getD c 0) ^ 2)).sum
          / (rows.length : ℚ) := by
  unfold numpyStdSq
  have hm_len : (numpyMean size rows).length = size := numpyMean_len size rows hr
  have hsd : ∀ r ∈ rows.map
      (fun row => List.zipWith (fun x mu => (x - mu) ^ 2) row (numpyMean size rows)),
      r.length = size := by
    intro r hrm
    obtain ⟨row, hrow, rfl⟩ := List.mem_map.mp hrm
    rw [List.length_zipWith, hr row hrow, hm_len, min_self]
  rw [getD_map _ _ _ (by rw [colSums_len size _ hsd]; exact hc),
    colSums_getD size c hc _ hsd, List.map_map]
  refine congrArg (fun l => List.sum l / ((rows.length : ℚ))) ?_
  refine List.map_congr_left ?_
  intro row hrow
  simp only [Function.comp_apply]
  rw [getD_zipWith _ _ _ _ (by rw [hr row hrow]; exact hc) (by rw [hm_len]; exact hc)]

/-! ### Claim C1 -/

/-- Claim C1 counterexample: the claim asserts that the Welford strategy and
the batch strategy produce the same mean vector and the same
standard-deviation vector in exact rational arithmetic.  On the dataset with
one configuration of two single-channel rows `0` and `2`, the means agree but
`welford_mean_and_std` returns `std^2 = M2/(n-1) = 2/1 = 2` while
`numpy_mean_and_std` (via `np.std`, population convention) returns
`std^2 = 1`; since the square root is injective on nonnegative reals, the
standard-deviation vectors differ as well. -/
theorem c1_counterexample :
    ¬ (welfordMean 1 [[[0], [2]]] = numpyMean 1 [[[0], [2]]].flatten ∧
       welfordStdSq 1 [[[0], [2]]] = numpyStdSq 1 [[[0], [2]]].flatten) := by
  rintro ⟨-, h⟩
  have hw : welfordStdSq 1 [[[0], [2]]] = [2] := by
    simp [welfordStdSq, welfordState, welfordInit, welfordStep]
    norm_num
  have hn : numpyStdSq 1 [[[0], [2]]].flatten = [1] := by
    simp [numpyStdSq, numpyMean, colSums]
    norm_num
  rw [hw, hn] at h
  have : (2 : ℚ) = 1 := List.head_eq_of_cons_eq h
  norm_num at this

/-- Claim C1 (amended): for every dataset whose rows all have `size` channels
and with at least 2 rows in total, the two strategies produce the same
per-channel mean vector in exact rational arithmetic, but the
standard-deviation vectors differ by the sample-versus-population convention:
per channel, `welfordStdSq * (n-1) = numpyStdSq * n` (both sides equal the sum
of squared deviations), so the standard deviations coincide only on
zero-variance channels. -/
theorem c1_corrected (size : ℕ) (configs : List (List (List ℚ)))
    (hrows : ∀ r ∈ configs.flatten, r.length = size)
    (htot : 2 ≤ configs.flatten.length) :
    welfordMean size configs = numpyMean size configs.flatten ∧
    ∀ c, c < size →
      (welfordStdSq size configs).getD c 0 * ((configs.flatten.length : ℚ) - 1)
        = (numpyStdSq size configs.flatten).getD c 0 * (configs.flatten.length : ℚ) := by
  have h2 : (2 : ℚ) ≤ (configs.flatten.length : ℚ) := by exact_mod_cast htot
  have hN0 : (configs.flatten.length : ℚ) ≠ 0 := by linarith
  have hN1 : (configs.flatten.length : ℚ) - 1 ≠ 0 := by linarith
  constructor
  · refine List.ext_getElem ?_ ?_
    · rw [welfordMean_len size configs hrows, numpyMean_len size configs.flatten hrows]
    · intro n h1 h2'
      have hc : n < size := by
        rw [welfordMean_len size configs hrows] at h1
        exact h1
      have hch := welfordState_channel size n hc configs hrows
      have hm := congrArg (fun p : ℕ × ℚ × ℚ => p.2.1) hch
      simp only at hm
      rw [← List.getD_eq_getElem _ 0 h1, ← List.getD_eq_getElem _ 0 h2']
      unfold welfordMean
      rw [hm, numpyMean_getD size n hc configs.flatten hrows]
  · intro c hc
    have hch := welfordState_channel size c hc configs hrows
    have hn := congrArg (fun p : ℕ × ℚ × ℚ => p.1) hch
    have hM := congrArg (fun p : ℕ × ℚ × ℚ => p.2.2) hch
    simp only at hn hM
    have hM2len : (welfordState size configs).2.2.length = size :=
      welfordM2_len size configs hrows
    have hw : (welfordStdSq size configs).getD c 0
        = (welfordState size configs).2.2.getD c 0
            / (((welfordState size configs).1 : ℚ) - 1) := by
      simp only [welfordStdSq]
      exact getD_map _ _ _ (by rw [hM2len]; exact hc)
    rw [hw, hM, hn, div_mul_cancel₀ _ hN1,
      numpyStdSq_getD size c hc configs.flatten hrows, div_mul_cancel₀ _ hN0]
    have hmm : (configs.flatten.map
          (fun r => (r.getD c 0 - (numpyMean size configs.flatten).getD c 0) ^ 2)).sum
        = ((configs.flatten.map (fun r => r.getD c 0)).map
            (fun x => (x - (numpyMean size configs.flatten).getD c 0) ^ 2)).sum := by
      rw [List.map_map]
      rfl
    rw [hmm, sq_dev_sum, numpyMean_getD size c hc configs.flatten hrows, List.length_map]
    set S := (List.map (fun r => r.getD c 0) configs.flatten).sum with hS
    set T := sqSum (List.map (fun r => r.getD c 0) configs.flatten) with hT
    set N := ((configs.flatten.length : ℚ)) with hNdef
    field_simp
    ring

/-- Claim C1 witness: the amended theorem applied to a concrete dataset of two
configurations with three single-channel rows in total. -/
theorem c1_witness :
    welfordMean 1 [[[1], [2]], [[6]]] = numpyMean 1 [[[1], [2]], [[6]]].flatten ∧
    ∀ c, c < 1 →
      (welfordStdSq 1 [[[1], [2]], [[6]]]).getD c 0
          * (([[[1], [2]], [[6]]].flatten.length : ℚ) - 1)
        = (numpyStdSq 1 [[[1], [2]], [[6]]].flatten).getD c 0
            * ([[[1], [2]], [[6]]].flatten.length : ℚ) :=
  c1_corrected 1 [[[1], [2]], [[6]]]
    (by intro r hr; simp at hr; rcases hr with h | h | h <;> simp [h])
    (by simp)

/-! ### Claim C3 -/

/-- Claim C3: the incremental accumulator of `welford_mean_and_std` processes
the fingerprint rows one at a time (the nested configuration/row loops equal a
single left fold of the step function over the concatenated row sequence); per
channel its state is exactly the triple `(n, mean, M2)` and one step follows
the exact rule `n += 1; delta = x - mean; mean += delta/n; delta2 = x - mean;
M2 += delta*delta2` (the scalar `specUpdate` stated from the spec); the final
count `n` is the total number of rows processed, and the returned squared
standard deviation is `M2/(n-1)` with that total `n`. -/
theorem c3_welford_rule (size : ℕ) (configs : List (List (List ℚ))) :
    welfordState size configs = configs.flatten.foldl welfordStep (welfordInit size) ∧
    (welfordState size configs).1 = configs.flatten.length ∧
    (∀ st : ℕ × List ℚ × List ℚ, ∀ row : List ℚ, ∀ c : ℕ,
      c < size → st.2.1.length = size → st.2.2.length = size → row.length = size →
      ((welfordStep st row).1, (welfordStep st row).2.1.getD c 0,
        (welfordStep st row).2.2.getD c 0)
        = specUpdate (st.1, st.2.1.getD c 0, st.2.2.getD c 0) (row.getD c 0)) ∧
    (∀ c : ℕ, c < size → (∀ r ∈ configs.flatten, r.length = size) →
      (welfordStdSq size configs).getD c 0
        = (welfordState size configs).2.2.getD c 0 / ((configs.flatten.length : ℚ) - 1)) := by
  refine ⟨welfordState_flatten size configs, ?_, ?_, ?_⟩
  · rw [welfordState_flatten, welfordFold_n]
    simp [welfordInit]
  · intro st row c hc h1 h2 h3
    exact welfordStep_getD size st row c hc h1 h2 h3
  · intro c hc hrows
    have hM2len : (welfordState size configs).2.2.length = size :=
      welfordM2_len size configs hrows
    have hn : (welfordState size configs).1 = configs.flatten.length := by
      rw [welfordState_flatten, welfordFold_n]
      simp [welfordInit]
    simp only [welfordStdSq]
    rw [getD_map _ _ _ (by rw [hM2len]; exact hc), hn]

/-- Claim C3 witness: the rule theorem applied at a concrete dataset, state and
row, with all hypotheses discharged. -/
theorem c3_witness :
    ((welfordStep (0, [0], [0]) [2]).1, (welfordStep (0, [0], [0]) [2]).2.1.getD 0 0,
      (welfordStep (0, [0], [0]) [2]).2.2.getD 0 0)
      = specUpdate (0, ([0] : List ℚ).getD 0 0, ([0] : List ℚ).getD 0 0)
          (([2] : List ℚ).getD 0 0) ∧
    (welfordStdSq 1 [[[2], [4]]]).getD 0 0
      = (welfordState 1 [[[2], [4]]]).2.2.getD 0 0
          / (([[[2], [4]]].flatten.length : ℚ) - 1) :=
  ⟨(c3_welford_rule 1 [[[2], [4]]]).2.2.1 (0, [0], [0]) [2] 0
      (by norm_num) (by simp) (by simp) (by simp),
   (c3_welford_rule 1 [[[2], [4]]]).2.2.2 0 (by norm_num)
      (by intro r hr; simp at hr; rcases hr with h | h <;> simp [h])⟩

/-! ### Claim C4: normalization -/

/-- Generic version of `getD_map` for arbitrary element types. -/
theorem getD_map_gen {A B : Type} (f : A -> B) (l : List A) (c : Nat)
    (hc : c < l.length) (d : A) (e : B) :
    (l.map f).getD c e = f (l.getD c d) := by
  have hm : c < (l.map f).length := by simpa using hc
  rw [List.getD_eq_getElem _ _ hm, List.getD_eq_getElem _ _ hc, List.getElem_map]

/-- Generic version of `getD_zipWith` for arbitrary element types. -/
theorem getD_zipWith_gen {A B C : Type} (f : A -> B -> C) (as : List A) (bs : List B)
    (c : Nat) (ha : c < as.length) (hb : c < bs.length) (da : A) (db : B) (e : C) :
    (List.zipWith f as bs).getD c e = f (as.getD c da) (bs.getD c db) := by
  have hz : c < (List.zipWith f as bs).length := by
    rw [List.length_zipWith]
    exact lt_min ha hb
  rw [List.getD_eq_getElem _ _ hz, List.getD_eq_getElem _ _ ha,
    List.getD_eq_getElem _ _ hb, List.getElem_zipWith]

/-- `zeta = (zeta - mean) / std` (ann.py lines 243 and 282): numpy broadcasts
the per-channel vectors `mean` and `std` across the rows of the fingerprint
matrix. -/
def normalizeZeta (zeta : List (List Rat)) (mean std : List Rat) : List (List Rat) :=
  zeta.map (fun row =>
    List.zipWith (fun d s => d / s) (List.zipWith (fun z m => z - m) row mean) std)

/-- `dzetadr = dzetadr / std_3d` with `std_3d = np.atleast_3d(std)` of shape
`(1, size, 1)` (ann.py lines 212, 244, 281 and 283): broadcasting divides every
entry of channel `c` by `std[c]`, uniformly across the atom axis (axis 0) and
the coordinate axis (axis 2); nothing is subtracted. -/
def normalizeDzetadr (dz : List (List (List Rat))) (std : List Rat) :
    List (List (List Rat)) :=
  dz.map (fun mat => List.zipWith (fun chan s => chan.map (fun d => d / s)) mat std)

/-- Claim C4: normalization returns `zeta = (zeta - mean) / std` with `mean`
and `std` broadcast across rows, and `dzetadr = dzetadr / std` with `std`
aligned to the channel axis (axis 1) only, entrywise over the remaining two
axes; the derivative tensor is rescaled but not centered, and both shapes are
preserved. -/
theorem c4_normalize (zeta : List (List Rat)) (dz : List (List (List Rat)))
    (mean std : List Rat) :
    (normalizeZeta zeta mean std).length = zeta.length /\
    (forall a c : Nat, a < zeta.length -> c < (zeta.getD a []).length ->
      c < mean.length -> c < std.length ->
      ((normalizeZeta zeta mean std).getD a []).getD c 0
        = ((zeta.getD a []).getD c 0 - mean.getD c 0) / std.getD c 0) /\
    (normalizeDzetadr dz std).length = dz.length /\
    (forall a c k : Nat, a < dz.length -> c < (dz.getD a []).length ->
      c < std.length -> k < ((dz.getD a []).getD c []).length ->
      (((normalizeDzetadr dz std).getD a []).getD c []).getD k 0
        = ((dz.getD a []).getD c []).getD k 0 / std.getD c 0) := by
  refine ⟨by simp [normalizeZeta], ?_, by simp [normalizeDzetadr], ?_⟩
  · intro a c ha hcz hcm hcs
    unfold normalizeZeta
    rw [getD_map_gen _ _ _ ha []]
    rw [getD_zipWith_gen _ _ _ _ (by rw [List.length_zipWith]; omega) hcs 0 0]
    rw [getD_zipWith_gen _ _ _ _ hcz hcm 0 0]
  · intro a c k ha hcd hcs hk
    unfold normalizeDzetadr
    rw [getD_map_gen _ _ _ ha []]
    rw [getD_zipWith_gen _ _ _ _ hcd hcs [] 0]
    rw [getD_map_gen _ _ _ hk 0]

/-- Claim C4 witness: the normalization theorem applied to a concrete
fingerprint matrix, derivative tensor, mean and std. -/
theorem c4_witness :
    ((normalizeZeta [[4]] [2] [2]).getD 0 []).getD 0 0
      = ((([[4]] : List (List Rat)).getD 0 []).getD 0 0
          - ([2] : List Rat).getD 0 0) / ([2] : List Rat).getD 0 0 /\
    (((normalizeDzetadr [[[6, 8]]] [2]).getD 0 []).getD 0 []).getD 1 0
      = ((([[[6, 8]]] : List (List (List Rat))).getD 0 []).getD 0 []).getD 1 0
          / ([2] : List Rat).getD 0 0 :=
  ⟨(c4_normalize [[4]] [[[6, 8]]] [2] [2]).2.1 0 0
      (by norm_num) (by norm_num) (by norm_num) (by norm_num),
   (c4_normalize [[4]] [[[6, 8]]] [2] [2]).2.2.2 0 0 1
      (by norm_num) (by norm_num) (by norm_num) (by norm_num)⟩

/-! ### Embedding of `src/kliff/models/neural_network.py` -/

/-- A torch layer as used by `NeuralNetwork`: `torch.nn.Linear` carries
`in_features` and `out_features`; the supported activation layers and
`torch.nn.Dropout` (probability `p`) carry no shape.  The numeric weight and
bias entries play no role in any verified claim, so a `Linear` layer is
represented by its shape. -/
inductive Layer : Type
  | linear (inFeatures outFeatures : Nat)
  | sigmoid
  | tanh
  | relu
  | elu
  | dropout (p : Rat)
deriving DecidableEq

/-- The Python class name of a layer, the string `_group_layers` dispatches
on (`layer.__class__.__name__`). -/
def layerName : Layer → String
  | Layer.linear _ _ => "Linear"
  | Layer.sigmoid => "Sigmoid"
  | Layer.tanh => "Tanh"
  | Layer.relu => "ReLU"
  | Layer.elu => "ELU"
  | Layer.dropout _ => "Dropout"

/-- `param_layer` default of `_group_layers` (neural_network.py 259). -/
def paramLayerNames : List String := ["Linear"]

/-- `activ_layer` default of `_group_layers` (neural_network.py 260). -/
def activLayerNames : List String := ["Sigmoid", "Tanh", "ReLU", "ELU"]

/-- `dropout_layer` default of `_group_layers` (neural_network.py 261). -/
def dropoutLayerNames : List String := ["Dropout"]

/-- Python string slice `name[:7]` (neural_network.py 295), on the character
list of the string. -/
def pyTake7 (s : String) : String := String.mk (s.data.take 7)

/-- Python `str.lower()` (used as `name.lower()`, neural_network.py 338). -/
def pyLower (s : String) : String := String.mk (s.data.map Char.toLower)

/-- Python `self.layers[i-1]` (neural_network.py 290 and 296): for `i = 0`
Python indexes `layers[-1]`, the *last* layer of the stack. -/
def prevLayer (layers : List Layer) (i : Nat) : Layer :=
  if i = 0 then layers.getLastD (Layer.linear 0 0)
  else layers.getD (i - 1) (Layer.linear 0 0)

/-- The `for i, layer in enumerate(self.layers)` loop body of `_group_layers`
(neural_network.py 279-304), carried over the enumerated remainder with the
accumulated `groups` and the current `new_group`. -/
def groupLoop (layers : List Layer) :
    List (Nat × Layer) → List (List Layer) → List Layer →
    Except String (List (List Layer) × List Layer)
  | [], groups, newGroup => Except.ok (groups, newGroup)
  | (i, la) :: rest, groups, newGroup =>
    let name := layerName la
    if !((paramLayerNames ++ activLayerNames ++ dropoutLayerNames).contains name) then
      Except.error ("Layer \"" ++ name ++ "\" not supported by KIM model. Cannot proceed to write.")
    else if activLayerNames.contains name && i == 0 then
      Except.error ("First layer cannot be a \"" ++ name ++ "\" layer")
    else if activLayerNames.contains name
        && !(paramLayerNames.contains (layerName (prevLayer layers i))) then
      Except.error ("Cannot convert to KIM model. a \"" ++ name
        ++ "\" layer must follow a \"Linear\" layer.")
    else if dropoutLayerNames.contains (pyTake7 name)
        && !(activLayerNames.contains (layerName (prevLayer layers i))) then
      Except.error ("Cannot convert to KIM model. a \"" ++ name
        ++ "\" layer must follow an activation layer.")
    else if paramLayerNames.contains name then
      groupLoop layers rest (groups ++ [newGroup]) [la]
    else
      groupLoop layers rest groups (newGroup ++ [la])

/-- `_group_layers` (neural_network.py 257-307): validates the layer stack and
divides it into groups; a `Linear` layer closes the current group, and the
final `new_group` is appended at the end. -/
def groupLayers (layers : List Layer) : Except String (List (List Layer)) :=
  match groupLoop layers layers.enum [] [] with
  | Except.error e => Except.error e
  | Except.ok (groups, newGroup) => Except.ok (groups ++ [newGroup])

/-- `_get_weights_and_biases` (neural_network.py 309-325): for every group but
the first, the group head is inspected and, when it is a `Linear` layer, its
weight (torch storage shape `(out_features, in_features)`) and bias (length
`out_features`) are collected.  Non-first groups produced by `groupLayers` are
never empty (each is opened by the `Linear` layer that closed its
predecessor), so the `headD` default is unreachable. -/
def getWeightsAndBiases (groups : List (List Layer)) : List (Nat × Nat) × List Nat :=
  let lins := (groups.drop 1).filterMap (fun g =>
    match g.headD Layer.sigmoid with
    | Layer.linear i o => some (i, o)
    | _ => none)
  (lins.map (fun p => (p.2, p.1)), lins.map (fun p => p.2))

/-- The loop body of `_get_activations` over the middle groups
(neural_network.py 333-338): `g[1]` raises `IndexError` on a group with fewer
than two layers; otherwise the lower-cased class name is collected when it is
a supported activation. -/
def getActivationsLoop : List (List Layer) → Except String (List String)
  | [] => Except.ok []
  | g :: rest =>
    match g.get? 1 with
    | none => Except.error ("IndexError: list index out of range")
    | some la =>
      match getActivationsLoop rest with
      | Except.error e => Except.error e
      | Except.ok acts =>
        Except.ok (if activLayerNames.contains (layerName la) then
          pyLower (layerName la) :: acts else acts)

/-- `_get_activations` (neural_network.py 327-339): one activation name per
group that is neither the first nor the last. -/
def getActivations (groups : List (List Layer)) : Except String (List String) :=
  getActivationsLoop (groups.drop 1).dropLast

/-- The dropout probability attribute `layer.p` of a `Dropout` layer. -/
def dropP : Layer → Rat
  | Layer.dropout p => p
  | _ => 0

/-- The loop body of `_get_drop_ratios` over the middle groups
(neural_network.py 356-365): a three-layer group contributes its third layer
probability when that layer is a `Dropout`; any other group contributes
`0.0`. -/
def middleDropRatios : List (List Layer) → List Rat
  | [] => []
  | g :: rest =>
    (if g.length == 3 then
      (match g.getD 2 Layer.sigmoid with
       | Layer.dropout p => [p]
       | _ => [])
     else [0]) ++ middleDropRatios rest

/-- `_get_drop_ratios` (neural_network.py 341-367): the first group
contributes its dropout probability when it consists of a `Dropout` layer,
`0.0` when it is empty; the last group is skipped; middle groups follow
`middleDropRatios`. -/
def getDropRatios (groups : List (List Layer)) : List Rat :=
  match groups with
  | [] => []
  | g0 :: rest =>
    (match g0 with
     | [] => [0]
     | la :: _ =>
       match la with
       | Layer.dropout p => [p]
       | _ => []) ++ middleDropRatios rest.dropLast

/-- The content of the `NN.params` file written by `write_kim_params`
(neural_network.py 100-181), abstracted from its textual layout: the layer
count line, the layer-size line (one bias length per layer), the activation
line (`activations[0]`), the keep-probability line (`1 - p` per group), and
the shapes of the written weight blocks (after the `torch.t` transposition of
line 108). -/
structure ParamsFile where
  numLayers : Nat
  layerSizes : List Nat
  activation : String
  keepProbs : List Rat
  weightShapes : List (Nat × Nat)
deriving DecidableEq

/-- `write_kim_params` (neural_network.py 100-147): the weights, biases,
activations and drop ratios are computed (each re-running `_group_layers`,
which is pure, so one shared run is equivalent) before the output file is
opened; `activations[0]` on an empty activation list raises `IndexError`. -/
def writeKimParams (layers : List Layer) : Except String ParamsFile :=
  match groupLayers layers with
  | Except.error e => Except.error e
  | Except.ok groups =>
    let wb := getWeightsAndBiases groups
    match getActivations groups with
    | Except.error e => Except.error e
    | Except.ok activations =>
      let dropRatios := getDropRatios groups
      let weightsT := wb.1.map (fun p => (p.2, p.1))
      match activations with
      | [] => Except.error ("IndexError: list index out of range")
      | a0 :: _ =>
        Except.ok
          { numLayers := weightsT.length
            layerSizes := wb.2
            activation := a0
            keepProbs := dropRatios.map (fun p => 1 - p)
            weightShapes := weightsT }

/-- `in_features` attribute access; absent on non-`Linear` layers
(an `AttributeError` in Python). -/
def inFeaturesOf : Layer → Option Nat
  | Layer.linear i _ => some i
  | _ => none

/-- `out_features` attribute access; absent on non-`Linear` layers. -/
def outFeaturesOf : Layer → Option Nat
  | Layer.linear _ o => some o
  | _ => none

/-- A raised Python error: `NNError.config` is a `NeuralNetworkError` raised
through `report_error`; `NNError.attr` is an ordinary `AttributeError` or
`IndexError` crash. -/
inductive NNError : Type
  | config (msg : String)
  | attr (msg : String)
deriving DecidableEq

/-- `add_layers` (neural_network.py 33-67).  `current` is the prior value of
`self.layers` (`none` for a fresh model).  A second call is rejected first;
then the layers are appended and the first layer `in_features` and last layer
`out_features` are shape-checked against the descriptor size and `1`. -/
def addLayers (current : Option (List Layer)) (descSize : Nat)
    (newLayers : List Layer) : Except NNError (List Layer) :=
  match current with
  | some _ => Except.error (NNError.config
      ("\"add_layers\" called multiple times. It should be called only once."))
  | none =>
    match newLayers with
    | [] => Except.error (NNError.attr ("IndexError: list index out of range"))
    | first :: _ =>
      match inFeaturesOf first with
      | none => Except.error (NNError.attr ("AttributeError: in_features"))
      | some inF =>
        if inF ≠ descSize then
          Except.error (NNError.config
            ("\"in_features\" of first layer should be equal to descriptor size."))
        else
          match outFeaturesOf (newLayers.getLastD first) with
          | none => Except.error (NNError.attr ("AttributeError: out_features"))
          | some outF =>
            if outF ≠ 1 then
              Except.error (NNError.config ("\"out_features\" of last layer should be 1."))
            else Except.ok newLayers

/-- Python `if d > 1: d = 1` then `if d < 0: d = 0` clipping of a mask entry
(neural_network.py 220-221). -/
def clip01 (d : Int) : Int :=
  let d1 := if d > 1 then 1 else d
  if d1 < 0 then 0 else d1

/-- The content of the `dropout_binary.params` file written by
`write_kim_dropout_binary` (neural_network.py 183-223): the repeat-count line
and, per repeat and per layer, a row of clipped mask entries. -/
structure DropoutFile where
  repeatCount : Nat
  masks : List (List (List Int))
deriving DecidableEq

/-- `write_kim_dropout_binary` (neural_network.py 183-223).  `u r i j` is the
`np.random.uniform(k, k+1, n)` draw for repeat `r`, layer `i`, unit `j`,
abstracted as an oracle (the only non-embeddable part is the RNG stream); the
code floors and clips each draw.  The `repeat` argument is unconditionally
overwritten with `50` (line 191; the code that would write the reserved value
`0` for dropout-free models is commented out pending a KIM driver update). -/
def writeKimDropoutBinary (descSize : Nat) (layers : List Layer)
    (repeatArg : Option Nat) (u : Nat → Nat → Nat → Rat) : Except String DropoutFile :=
  match groupLayers layers with
  | Except.error e => Except.error e
  | Except.ok groups =>
    let dropRatios := getDropRatios groups
    let keepProb := dropRatios.map (fun p => 1 - p)
    let numUnits := descSize :: (getWeightsAndBiases groups).2
    let rep := 50
    Except.ok
      { repeatCount := rep
        masks := (List.range rep).map (fun r =>
          (List.range keepProb.length).map (fun i =>
            (List.range (numUnits.getD i 0)).map (fun j => clip01 ⌊u r i j⌋))) }

/-- The observable file-system outcome of an export call: which artifact files
exist afterwards, and the raised error if any. -/
structure ExportOutcome where
  filesWritten : List String
  error : Option String
deriving DecidableEq

/-- Whether `write_kim_params` reaches the `open` on line 110: the
computations of lines 102-104 (`_get_weights_and_biases`,
`_get_activations`, `_get_drop_ratios`) must not raise. -/
def paramsPreOpenOk (layers : List Layer) : Bool :=
  match groupLayers layers with
  | Except.error _ => false
  | Except.ok groups =>
    match getActivations groups with
    | Except.error _ => false
    | Except.ok _ => true

/-- `write_kim_model` (neural_network.py 74-98): the output directory is
created, then `write_kim_cmakelists` writes `CMakeLists.txt` (line 90),
then `write_kim_params` writes `NN.params`, then the descriptor writes
`descriptor.params` (external collaborator, never raises), then
`write_kim_dropout_binary` writes `dropout_binary.params` (its own
re-validation cannot fail once `write_kim_params` succeeded).  An error in
`write_kim_params` leaves `NN.params` absent when raised before the `open`
and present but partial when raised after it. -/
def writeKimModel (layers : List Layer) : ExportOutcome :=
  match writeKimParams layers with
  | Except.error e =>
    { filesWritten :=
        if paramsPreOpenOk layers then ["CMakeLists.txt", "NN.params"]
        else ["CMakeLists.txt"]
      error := some e }
  | Except.ok _ =>
    { filesWritten := ["CMakeLists.txt", "NN.params", "descriptor.params",
        "dropout_binary.params"]
      error := none }

/-! ### Claims C2, C5, C6, C7, C9 -/

/-- Claim C2 counterexample: the claim asserts that an export on a model with a
structural violation raises a configuration error *and* leaves no artifact
file at all.  On the stack `[Sigmoid, Linear(10,1)]` (an activation layer not
preceded by a linear layer) the error is raised, but `write_kim_model` has
already written `CMakeLists.txt` (line 90) before `write_kim_params` runs the
`_group_layers` validation, so a file is left behind. -/
theorem c2_counterexample :
    (writeKimModel [Layer.sigmoid, Layer.linear 10 1]).error.isSome = true ∧
    (writeKimModel [Layer.sigmoid, Layer.linear 10 1]).filesWritten ≠ [] := by
  refine ⟨rfl, ?_⟩
  have h : (writeKimModel [Layer.sigmoid, Layer.linear 10 1]).filesWritten
      = ["CMakeLists.txt"] := rfl
  rw [h]
  simp

/-- Claim C2 (amended): for every layer stack on which `_group_layers` reports
a structural violation (unsupported layer kind, activation not after a linear
layer, dropout not after an activation layer), the export raises that
configuration error and writes none of the parameter files (`NN.params`,
`descriptor.params`, `dropout_binary.params`) — but the build-descriptor file
`CMakeLists.txt` has already been written before the validation runs, so the
output location is not left empty. -/
theorem c2_corrected (layers : List Layer) (e : String)
    (h : groupLayers layers = Except.error e) :
    writeKimModel layers = { filesWritten := ["CMakeLists.txt"], error := some e } := by
  simp [writeKimModel, writeKimParams, paramsPreOpenOk, h]

/-- Claim C2 witness: the amended theorem at the concrete violating stack
`[Sigmoid, Linear(10,1)]`. -/
theorem c2_witness :
    writeKimModel [Layer.sigmoid, Layer.linear 10 1]
      = { filesWritten := ["CMakeLists.txt"],
          error := some ("First layer cannot be a \"Sigmoid\" layer") } :=
  c2_corrected [Layer.sigmoid, Layer.linear 10 1]
    ("First layer cannot be a \"Sigmoid\" layer") rfl

/-- Claim C5: for the stack `[Linear(10,5), Sigmoid, Linear(5,1)]` with
descriptor size 10, `add_layers` accepts the model, and `write_kim_params`
succeeds with exactly 2 weight/bias blocks (transposed shapes `(10,5)` and
`(5,1)`), layer count 2, layer sizes `5 1`, activation line `sigmoid`, and
keep probabilities `1 1` (full retention by default without dropout
layers). -/
theorem c5_export_params :
    addLayers none 10 [Layer.linear 10 5, Layer.sigmoid, Layer.linear 5 1]
      = Except.ok [Layer.linear 10 5, Layer.sigmoid, Layer.linear 5 1] ∧
    writeKimParams [Layer.linear 10 5, Layer.sigmoid, Layer.linear 5 1]
      = Except.ok { numLayers := 2, layerSizes := [5, 1], activation := "sigmoid",
                    keepProbs := [1, 1], weightShapes := [(10, 5), (5, 1)] } := by
  constructor
  · rfl
  · have h : writeKimParams [Layer.linear 10 5, Layer.sigmoid, Layer.linear 5 1]
        = Except.ok { numLayers := 2, layerSizes := [5, 1], activation := "sigmoid",
                      keepProbs := [1 - 0, 1 - 0], weightShapes := [(10, 5), (5, 1)] } := rfl
    simpa using h

/-- Claim C6 (documents the code bug): on the stack
`[Dropout(0.2), Linear(10,5), Sigmoid, Dropout(0.3), Linear(5,1)]` the claim
(and the docstring of `_group_layers`, which allows a leading input-dropout
group) expects export to succeed with keep probabilities `0.8 0.7`; instead
`_group_layers` raises on the very first layer: at `i = 0` the guard on line
296 reads `self.layers[i-1]`, which in Python is `self.layers[-1]` — the last
layer, a `Linear` — so the input dropout is reported as not following an
activation layer. -/
theorem c6_code_bug :
    groupLayers [Layer.dropout (1/5), Layer.linear 10 5, Layer.sigmoid,
      Layer.dropout (3/10), Layer.linear 5 1]
      = Except.error
          ("Cannot convert to KIM model. a \"Dropout\" layer must follow an activation layer.") := rfl

/-- Claim C7: a first-layer `Linear` whose `in_features` differs from the
descriptor size is rejected by `add_layers` with a configuration error, and a
second `add_layers` call (layers already set) is rejected with the
configuration error naming the duplicate call; both errors are raised by
`add_layers` itself, before any training can occur. -/
theorem c7_addLayers_errors :
    (∀ (descSize inF outF : Nat) (rest : List Layer), inF ≠ descSize →
      addLayers none descSize (Layer.linear inF outF :: rest)
        = Except.error (NNError.config
            ("\"in_features\" of first layer should be equal to descriptor size."))) ∧
    (∀ (cur : List Layer) (descSize : Nat) (ls : List Layer),
      addLayers (some cur) descSize ls
        = Except.error (NNError.config
            ("\"add_layers\" called multiple times. It should be called only once."))) := by
  constructor
  · intro descSize inF outF rest h
    simp [addLayers, inFeaturesOf, h]
  · intro cur descSize ls
    rfl

/-- Claim C7 witness: both parts of the theorem at concrete inputs. -/
theorem c7_witness :
    addLayers none 10 [Layer.linear 5 3, Layer.linear 3 1]
      = Except.error (NNError.config
          ("\"in_features\" of first layer should be equal to descriptor size.")) ∧
    addLayers (some [Layer.linear 10 1]) 10 [Layer.linear 10 1]
      = Except.error (NNError.config
          ("\"add_layers\" called multiple times. It should be called only once.")) :=
  ⟨c7_addLayers_errors.1 10 5 3 [Layer.linear 3 1] (by norm_num),
   c7_addLayers_errors.2 [Layer.linear 10 1] 10 [Layer.linear 10 1]⟩

/-- Claim C9: whenever `write_kim_dropout_binary` produces a file (that is,
whenever the stack passes `_group_layers`), the repeat-count line is `50`,
regardless of the `repeat` argument passed and of whether any dropout layer is
present; in particular the reserved value `0` is never written. -/
theorem c9_repeat_always_50 (descSize : Nat) (layers : List Layer)
    (repeatArg : Option Nat) (u : Nat → Nat → Nat → Rat)
    (h : (groupLayers layers).isOk = true) :
    (writeKimDropoutBinary descSize layers repeatArg u).map DropoutFile.repeatCount
      = Except.ok 50 ∧
    (writeKimDropoutBinary descSize layers repeatArg u).map DropoutFile.repeatCount
      ≠ Except.ok 0 := by
  cases hg : groupLayers layers with
  | error e =>
    rw [hg] at h
    simp [Except.isOk, Except.toBool] at h
  | ok groups =>
    constructor
    · simp [writeKimDropoutBinary, hg, Except.map]
    · simp [writeKimDropoutBinary, hg, Except.map]

/-- Claim C9 witness: a dropout-free model exported with an explicit `repeat`
argument of 7 still gets repeat count 50. -/
theorem c9_witness :
    (groupLayers [Layer.linear 2 1]).isOk = true ∧
    ((writeKimDropoutBinary 2 [Layer.linear 2 1] (some 7) (fun _ _ _ => 0)).map
        DropoutFile.repeatCount = Except.ok 50 ∧
      (writeKimDropoutBinary 2 [Layer.linear 2 1] (some 7) (fun _ _ _ => 0)).map
        DropoutFile.repeatCount ≠ Except.ok 0) :=
  ⟨rfl, c9_repeat_always_50 2 [Layer.linear 2 1] (some 7) (fun _ _ _ => 0) rfl⟩

/-! ### Claim C10: `convert_raw_to_tfrecords` -/

/-- An observable effect of `convert_raw_to_tfrecords`: a statistics
computation pass, or a file written. -/
inductive TfEvent : Type
  | computeStats
  | writeFile (name : String)
deriving DecidableEq

/-- `convert_raw_to_tfrecords` (ann.py 380-521), abstracted to its observable
effect trace (events in order, and the raised error if any).  `configs` is the
dataset (contents irrelevant to the trace); `trExists` models
`os.path.exists(train.tfrecords)`; the remaining flags are the keyword
arguments.  The size check of lines 429-432 runs inside `if size_validation
!= 0` and precedes every statistics computation and every file write; the
shuffle of line 427 only permutes indices and has no observable effect
here. -/
def convertRawToTfrecords {A : Type} (configs : List A) (sizeValidation : Nat)
    (trExists doGenerate doNormalize doShuffle useWelford : Bool) :
    List TfEvent × Option String :=
  let sizeDataset := configs.length
  if sizeValidation ≠ 0 ∧ sizeValidation > sizeDataset then
    ([], some ("Validation set size \"" ++ toString sizeValidation
      ++ "\" larger than dataset size \"" ++ toString sizeDataset ++ "\"."))
  else
    let doGen := doGenerate || !trExists
    if doGen then
      ((if doNormalize then
          [TfEvent.computeStats, TfEvent.writeFile "mean_and_std_for_kim_ann"]
        else
          [TfEvent.writeFile "mean_and_std_for_kim_ann"])
        ++ [TfEvent.writeFile "train.tfrecords"]
        ++ (if sizeValidation ≠ 0 then [TfEvent.writeFile "validation.tfrecords"] else []),
       none)
    else ([], none)

/-- Claim C10: a requested validation-set size strictly greater than the
dataset size makes `convert_raw_to_tfrecords` raise a `ValueError` reporting
both sizes, before any statistics pass and before any file is written (the
effect trace is empty). -/
theorem c10_validation_size (A : Type) (configs : List A) (sizeValidation : Nat)
    (trExists doGenerate doNormalize doShuffle useWelford : Bool)
    (h : sizeValidation > configs.length) :
    convertRawToTfrecords configs sizeValidation trExists doGenerate doNormalize
        doShuffle useWelford
      = ([], some ("Validation set size \"" ++ toString sizeValidation
          ++ "\" larger than dataset size \"" ++ toString configs.length ++ "\".")) := by
  have h0 : sizeValidation ≠ 0 := by omega
  simp [convertRawToTfrecords, h, h0]

/-- Claim C10 witness: validation size 2 on a 1-configuration dataset. -/
theorem c10_witness :
    convertRawToTfrecords ([()] : List Unit) 2 false false true false false
      = ([], some ("Validation set size \"2\" larger than dataset size \"1\".")) :=
  c10_validation_size Unit [()] 2 false false true false false (by norm_num)

/-! ### Claim C8: the persisted normalization file -/

/-- Python `line[:line.index(chr(35))] if chr(35) in line else line`
(ann.py 583-584): a line is truncated at its first `#`; without `#` the
`takeWhile` is the whole line. -/
def pyCommentStrip (l : List Char) : List Char := l.takeWhile (fun c => c != '#')

/-- Python `line.strip()` (ann.py 585): whitespace removed from both ends. -/
def pyStrip (l : List Char) : List Char :=
  ((l.dropWhile Char.isWhitespace).reverse.dropWhile Char.isWhitespace).reverse

/-- Decimal digit to its character. -/
def digitToChar : Nat → Char
  | 0 => '0' | 1 => '1' | 2 => '2' | 3 => '3' | 4 => '4'
  | 5 => '5' | 6 => '6' | 7 => '7' | 8 => '8' | _ => '9'

/-- The decimal rendering of a natural number produced by Python
`format` for the channel-count line (`len(mean)`). -/
def renderNat (n : Nat) : List Char :=
  if n = 0 then ['0'] else ((Nat.digits 10 n).map digitToChar).reverse

/-- Python `int(line)` on a stripped line (ann.py 589), for the decimal
strings the writer emits: all characters must be digits. -/
def parseNatChars (l : List Char) : Option Nat :=
  if !l.isEmpty && l.all Char.isDigit then
    some (l.foldl (fun acc c => 10 * acc + (c.toNat - 48)) 0)
  else none

/-- The lines of the `mean_and_std_for_kim_ann` file written by
`convert_raw_to_tfrecords` (ann.py 474-481): the channel count with an inline
comment, a `# mean` comment line, one rendered float per mean entry, a
`# standard derivation` comment line, one rendered float per std entry.
`render` abstracts the `24.16e` float formatting (the claim only requires the
round trip up to the written precision, which the parametrized rendering
carries). -/
def meanStdLines (render : Rat → List Char) (mean std : List Rat) :
    List (List Char) :=
  (renderNat mean.length ++ (' ' :: ' ' :: '#' :: " number of descriptors.".data))
    :: ('#' :: " mean".data)
    :: (mean.map render
        ++ (('#' :: " standard derivation".data) :: std.map render))

/-- The reader loop of `convert_raw_to_tfrecords_testset` (ann.py 581-593):
each line is truncated at `#` and stripped; blank results are skipped; the
first remaining token is the channel count, every later one a float appended
to `data`.  A failing `int`/`float` conversion (Python `ValueError`) and a
file that never provides the count line give `none`. -/
def parseLoop (parseNum : List Char → Option Rat) :
    List (List Char) → Option Nat → List Rat → Option (Nat × List Rat)
  | [], sizeSoFar, data =>
    match sizeSoFar with
    | none => none
    | some sz => some (sz, data)
  | line :: rest, sizeSoFar, data =>
    let l := pyStrip (pyCommentStrip line)
    if l.isEmpty then parseLoop parseNum rest sizeSoFar data
    else
      match sizeSoFar with
      | none =>
        match parseNatChars l with
        | none => none
        | some sz => parseLoop parseNum rest (some sz) data
      | some sz =>
        match parseNum l with
        | none => none
        | some q => parseLoop parseNum rest (some sz) (data ++ [q])

/-- `mean = np.array(data[:size]); std = np.array(data[size:])`
(ann.py 592-593) after the reader loop. -/
def parseMeanStd (parseNum : List Char → Option Rat) (lines : List (List Char)) :
    Option (Nat × List Rat × List Rat) :=
  match parseLoop parseNum lines none [] with
  | none => none
  | some (sz, data) => some (sz, data.take sz, data.drop sz)

theorem digitToChar_props (d : Nat) (hd : d < 10) :
    Char.isDigit (digitToChar d) = true ∧ Char.isWhitespace (digitToChar d) = false ∧
    (digitToChar d != '#') = true ∧ (digitToChar d).toNat - 48 = d := by
  interval_cases d <;> exact ⟨by decide, by decide, by decide, by decide⟩

theorem renderNat_chars (n : Nat) :
    ∀ c ∈ renderNat n, Char.isDigit c = true ∧ Char.isWhitespace c = false ∧
      (c != '#') = true := by
  intro c hc
  unfold renderNat at hc
  by_cases h0 : n = 0
  · rw [if_pos h0] at hc
    simp at hc
    subst hc
    exact ⟨by decide, by decide, by decide⟩
  · rw [if_neg h0] at hc
    rw [List.mem_reverse] at hc
    obtain ⟨d, hdm, rfl⟩ := List.mem_map.mp hc
    have hd : d < 10 := Nat.digits_lt_base (by norm_num) hdm
    exact ⟨(digitToChar_props d hd).1, (digitToChar_props d hd).2.1,
      (digitToChar_props d hd).2.2.1⟩

theorem renderNat_ne_nil (n : Nat) : renderNat n ≠ [] := by
  unfold renderNat
  by_cases h0 : n = 0
  · rw [if_pos h0]
    simp
  · rw [if_neg h0]
    simp [Nat.digits_ne_nil_iff_ne_zero.mpr h0]

theorem foldl_digits_rev (l : List Nat) (h : ∀ d ∈ l, d < 10) :
    ∀ acc : Nat,
      List.foldl (fun a c => 10 * a + (c.toNat - 48)) acc ((l.map digitToChar).reverse)
        = acc * 10 ^ l.length + Nat.ofDigits 10 l := by
  induction l with
  | nil => intro acc; simp
  | cons d tl ih =>
    intro acc
    have hd : d < 10 := h d (List.mem_cons_self d tl)
    simp only [List.map_cons, List.reverse_cons, List.foldl_append, List.foldl_cons,
      List.foldl_nil]
    rw [ih (fun x hx => h x (List.mem_cons_of_mem d hx)) acc,
      (digitToChar_props d hd).2.2.2, Nat.ofDigits_cons, List.length_cons]
    ring

theorem parse_render_nat (n : Nat) : parseNatChars (renderNat n) = some n := by
  by_cases h0 : n = 0
  · subst h0
    decide
  · unfold renderNat parseNatChars
    rw [if_neg h0]
    have hd : ∀ d ∈ Nat.digits 10 n, d < 10 :=
      fun d hdm => Nat.digits_lt_base (by norm_num) hdm
    have hne : Nat.digits 10 n ≠ [] := Nat.digits_ne_nil_iff_ne_zero.mpr h0
    have hchars : ∀ c ∈ ((Nat.digits 10 n).map digitToChar).reverse,
        Char.isDigit c = true := by
      intro c hc
      rw [List.mem_reverse] at hc
      obtain ⟨d, hdm, rfl⟩ := List.mem_map.mp hc
      exact (digitToChar_props d (hd d hdm)).1
    have hne2 : ((Nat.digits 10 n).map digitToChar).reverse ≠ [] := by
      simp [hne]
    have hfalse : ((Nat.digits 10 n).map digitToChar).reverse.isEmpty = false := by
      cases hl : ((Nat.digits 10 n).map digitToChar).reverse.isEmpty
      · rfl
      · exact absurd (List.isEmpty_iff.mp hl) hne2
    have hcond : (!((Nat.digits 10 n).map digitToChar).reverse.isEmpty
        && ((Nat.digits 10 n).map digitToChar).reverse.all Char.isDigit) = true := by
      rw [hfalse, List.all_eq_true.mpr hchars]
      rfl
    rw [if_pos hcond, foldl_digits_rev _ hd 0]
    simp [Nat.ofDigits_digits]

theorem takeWhile_append_all {A : Type} (p : A → Bool) (l1 l2 : List A)
    (h : ∀ a ∈ l1, p a = true) :
    (l1 ++ l2).takeWhile p = l1 ++ l2.takeWhile p := by
  induction l1 with
  | nil => simp
  | cons a l ih =>
    simp [List.takeWhile_cons, h a (List.mem_cons_self a l),
      ih (fun x hx => h x (List.mem_cons_of_mem a hx))]

theorem dropWhile_all_neg {A : Type} (p : A → Bool) (l : List A)
    (h : ∀ a ∈ l, p a = false) : l.dropWhile p = l := by
  induction l with
  | nil => rfl
  | cons a l ih =>
    simp [List.dropWhile_cons, h a (List.mem_cons_self a l),
      ih (fun x hx => h x (List.mem_cons_of_mem a hx))]

theorem pyStrip_append_spaces (l : List Char) (hne : l ≠ [])
    (h : ∀ c ∈ l, Char.isWhitespace c = false) :
    pyStrip (l ++ [' ', ' ']) = l := by
  unfold pyStrip
  have h1 : (l ++ [' ', ' ']).dropWhile Char.isWhitespace = l ++ [' ', ' '] := by
    obtain ⟨c, cs, rfl⟩ := List.exists_cons_of_ne_nil hne
    simp [List.cons_append, List.dropWhile_cons, h c (List.mem_cons_self c cs)]
  rw [h1, List.reverse_append,
    show ([' ', ' '] : List Char).reverse = [' ', ' '] from rfl]
  have h2 : List.dropWhile Char.isWhitespace ([' ', ' '] ++ l.reverse)
      = l.reverse.dropWhile Char.isWhitespace := by
    simp [List.cons_append, List.dropWhile_cons,
      show Char.isWhitespace ' ' = true by decide]
  rw [h2, dropWhile_all_neg _ _ (fun c hc => h c (List.mem_reverse.mp hc)),
    List.reverse_reverse]

theorem clean_countLine (n : Nat) (tail : List Char) :
    pyStrip (pyCommentStrip (renderNat n ++ (' ' :: ' ' :: '#' :: tail)))
      = renderNat n := by
  unfold pyCommentStrip
  rw [takeWhile_append_all _ _ _ (fun c hc => (renderNat_chars n c hc).2.2)]
  have ht : List.takeWhile (fun c => c != '#') (' ' :: ' ' :: '#' :: tail)
      = [' ', ' '] := by
    simp [List.takeWhile_cons, show ((' ' : Char) != '#') = true by decide,
      show (('#' : Char) != '#') = false by decide]
  rw [ht]
  exact pyStrip_append_spaces _ (renderNat_ne_nil n)
    (fun c hc => (renderNat_chars n c hc).2.1)

theorem parseLoop_skip (parseNum : List Char → Option Rat) (line : List Char)
    (rest : List (List Char)) (s : Option Nat) (d : List Rat)
    (h : pyStrip (pyCommentStrip line) = []) :
    parseLoop parseNum (line :: rest) s d = parseLoop parseNum rest s d := by
  simp [parseLoop, h]

theorem parseLoop_count (parseNum : List Char → Option Rat) (line : List Char)
    (rest : List (List Char)) (d : List Rat) (n : Nat)
    (h : pyStrip (pyCommentStrip line) = renderNat n) :
    parseLoop parseNum (line :: rest) none d = parseLoop parseNum rest (some n) d := by
  simp [parseLoop, h, List.isEmpty_iff, renderNat_ne_nil n, parse_render_nat n]

theorem parseLoop_value (parseNum : List Char → Option Rat) (line : List Char)
    (rest : List (List Char)) (sz : Nat) (d : List Rat) (q : Rat)
    (hne : pyStrip (pyCommentStrip line) ≠ [])
    (hp : parseNum (pyStrip (pyCommentStrip line)) = some q) :
    parseLoop parseNum (line :: rest) (some sz) d
      = parseLoop parseNum rest (some sz) (d ++ [q]) := by
  simp [parseLoop, List.isEmpty_iff, hne, hp]

theorem parseLoop_values (render : Rat → List Char) (parseNum : List Char → Option Rat)
    (qs : List Rat) :
    ∀ (rest : List (List Char)) (sz : Nat) (d : List Rat),
      (∀ q ∈ qs, pyStrip (pyCommentStrip (render q)) ≠ [] ∧
        parseNum (pyStrip (pyCommentStrip (render q))) = some q) →
      parseLoop parseNum (qs.map render ++ rest) (some sz) d
        = parseLoop parseNum rest (some sz) (d ++ qs) := by
  induction qs with
  | nil => intro rest sz d _; simp
  | cons q qs ih =>
    intro rest sz d h
    have hq := h q (List.mem_cons_self q qs)
    simp only [List.map_cons, List.cons_append]
    rw [parseLoop_value parseNum (render q) _ sz d q hq.1 hq.2,
      ih rest sz (d ++ [q]) (fun x hx => h x (List.mem_cons_of_mem q hx))]
    simp

/-- Claim C8: parsing back a written `mean_and_std_for_kim_ann` file (skipping
blank lines, truncating each line at an inline `#`) recovers the channel
count, the mean floats and the std floats exactly as written — provided the
number rendering itself round-trips through the parser (the `24.16e`
formatting, abstracted by `render`/`parseNum`, does so up to the written
precision). -/
theorem c8_roundtrip (render : Rat → List Char) (parseNum : List Char → Option Rat)
    (mean std : List Rat)
    (hmean : ∀ q ∈ mean, pyStrip (pyCommentStrip (render q)) ≠ [] ∧
      parseNum (pyStrip (pyCommentStrip (render q))) = some q)
    (hstd : ∀ q ∈ std, pyStrip (pyCommentStrip (render q)) ≠ [] ∧
      parseNum (pyStrip (pyCommentStrip (render q))) = some q) :
    parseMeanStd parseNum (meanStdLines render mean std)
      = some (mean.length, mean, std) := by
  unfold parseMeanStd meanStdLines
  rw [parseLoop_count parseNum _ _ [] mean.length (clean_countLine mean.length _),
    parseLoop_skip parseNum _ _ _ _ (by rfl),
    parseLoop_values render parseNum mean _ _ _ hmean,
    parseLoop_skip parseNum _ _ _ _ (by rfl),
    ← List.append_nil (List.map render std),
    parseLoop_values render parseNum std [] _ _ hstd]
  simp only [parseLoop, List.nil_append]
  rw [List.take_left, List.drop_left]

/-- Claim C8 witness: the round-trip theorem at a concrete file with one mean
and one std entry and a concrete renderer/parser pair. -/
theorem c8_witness :
    parseMeanStd (fun l => if l = ['1'] then some 1 else none)
        (meanStdLines (fun _ => ['1']) [1] [1])
      = some (1, [1], [1]) :=
  c8_roundtrip (fun _ => ['1']) (fun l => if l = ['1'] then some 1 else none) [1] [1]
    (by
      intro q hq
      simp only [List.mem_singleton] at hq
      subst hq
      exact ⟨by decide, rfl⟩)
    (by
      intro q hq
      simp only [List.mem_singleton] at hq
      subst hq
      exact ⟨by decide, rfl⟩)

end Spec2Proof
